import Mathlib

/-!
Shallow embedding of the isac-cran-system array signal-processing core
(beamforming weight synthesis and DOA estimation), with theorems checking
the natural-language specification against the code.

Floating-point values are modelled as real numbers, complex128 as `ℂ`,
Go slices as Lean lists (out-of-range reads via `getD`, matching the
bounds-checked accesses actually performed by the code), and fallible
operations as `Option`/`Except`.  External numerical library calls
(gonum's SVD and eigensolver) are passed in as explicit function
parameters, so every theorem is relative to an arbitrary but fixed
behaviour of those routines.
-/

open scoped Classical

noncomputable section

namespace ISAC

/-- Entry accessor for list-of-lists complex matrices (Go `m[i][j]`). -/
def get2c (m : List (List ℂ)) (i j : ℕ) : ℂ :=
  (m.getD i []).getD j 0

/-- Entry accessor for list-of-lists real matrices (Go `m[i][j]`). -/
def get2r (m : List (List ℝ)) (i j : ℕ) : ℝ :=
  (m.getD i []).getD j 0

/-- Reading index `n` of a list built by mapping over `List.range m`. -/
theorem getD_map_range {α : Type} (f : ℕ → α) {n m : ℕ} (h : n < m) (d : α) :
    ((List.range m).map f).getD n d = f n := by
  rw [List.getD_eq_getElem?_getD]
  simp [List.getElem?_map, List.getElem?_range h]

/-! ## Weight synthesizer (`beamforming` package, weights calculator) -/

/-- Sum of squared magnitudes accumulated by `normalize`
(`sum += cmplx.Abs(weight) * cmplx.Abs(weight)`). -/
def sumAbsSq (w : List ℂ) : ℝ :=
  (w.map (fun z => Complex.abs z * Complex.abs z)).sum

/-- `normalize`: divide every weight by the Euclidean norm of the vector.
The optimizer's `normalizeWeights` is the identical computation. -/
def normalize (w : List ℂ) : List ℂ :=
  w.map (fun z => z / ((Real.sqrt (sumAbsSq w) : ℝ) : ℂ))

/-- Pre-normalization weights built by `ComputeConjugateBeamforming`:
`weights[n] = cmplx.Exp(complex(0, -phase))` with
`phase = 2·π·n·elementSpacing·sin(targetAngle)`. -/
def conjugateRaw (elementCount : ℕ) (elementSpacing targetAngle : ℝ) : List ℂ :=
  (List.range elementCount).map fun (n : ℕ) =>
    Complex.exp (((-(2 * Real.pi * (n : ℝ) * elementSpacing * Real.sin targetAngle) : ℝ) : ℂ)
      * Complex.I)

/-- `ComputeConjugateBeamforming`: conjugated steering vector, normalized. -/
def ComputeConjugateBeamforming (elementCount : ℕ) (elementSpacing targetAngle : ℝ) :
    List ℂ :=
  normalize (conjugateRaw elementCount elementSpacing targetAngle)

/-- Pre-normalization weights built by `ComputeZOFBeamforming`:
`weights[n] = conj(Σ_angle exp(i·2π·n·d·sin angle))`. -/
def zofRaw (elementCount : ℕ) (elementSpacing : ℝ) (targetAngles : List ℝ) : List ℂ :=
  (List.range elementCount).map fun (n : ℕ) =>
    (starRingEnd ℂ) ((targetAngles.map fun angle =>
      Complex.exp (((2 * Real.pi * (n : ℝ) * elementSpacing * Real.sin angle : ℝ) : ℂ)
        * Complex.I)).sum)

/-- `ComputeZOFBeamforming`: superposed conjugated steering vectors, normalized. -/
def ComputeZOFBeamforming (elementCount : ℕ) (elementSpacing : ℝ)
    (targetAngles : List ℝ) : List ℂ :=
  normalize (zofRaw elementCount elementSpacing targetAngles)

/-- Row `i` of the augmented matrix `[matrix | I]` built by `matrixInverse`. -/
def augRow (m : List (List ℂ)) (n i : ℕ) : List ℂ :=
  (List.range (2 * n)).map fun j =>
    if j < n then get2c m i j else if j = n + i then 1 else 0

/-- One outer-loop step of the Gauss-Jordan elimination in `matrixInverse`:
divide row `i` by its (unchecked) pivot, then subtract multiples of row `i`
from every other row. -/
def pivotStep (i : ℕ) (aug : List (List ℂ)) : List (List ℂ) :=
  let pivot := get2c aug i i
  let aug1 := aug.set i ((aug.getD i []).map fun x => x / pivot)
  (List.range aug1.length).foldl
    (fun a k =>
      if k = i then a
      else
        a.set k (List.zipWith (fun x y => x - get2c a k i * y)
          (a.getD k []) (a.getD i [])))
    aug1

/-- `matrixInverse`: Gauss-Jordan elimination without any singularity check
(the Go code divides by the pivot unconditionally). -/
def matrixInverse (matrix : List (List ℂ)) : List (List ℂ) :=
  let n := matrix.length
  let aug := (List.range n).map fun i => augRow matrix n i
  let elim := (List.range n).foldl (fun a i => pivotStep i a) aug
  (List.range n).map fun i => ((elim.getD i []).drop n).take n

/-- `ComputeMVDRWeights`: `w = C⁻¹·a`, then divide by the distortionless
denominator `aᴴ·C⁻¹·a`.  There is no unit-norm normalization and no error
path in this function. -/
def ComputeMVDRWeights (covMatrix : List (List ℂ)) (steeringVector : List ℂ) :
    List ℂ :=
  let n := steeringVector.length
  let invCov := matrixInverse covMatrix
  let weights := (List.range n).map fun i =>
    ((List.range n).map fun j => get2c invCov i j * steeringVector.getD j 0).sum
  let denom := ((List.range n).map fun i =>
    (starRingEnd ℂ) (steeringVector.getD i 0) * weights.getD i 0).sum
  weights.map fun z => z / denom

/-! ## Adaptive optimizer (`optimizer.go`) -/

/-- `initializeWeights` from the optimizer: `weights[i] = exp(i·(-2π·i·0.5))`,
then normalized by `normalizeWeights` (identical to `normalize` above).
Note the phase does not involve the target direction. -/
def initializeWeights (elementCount : ℕ) : List ℂ :=
  normalize ((List.range elementCount).map fun (i : ℕ) =>
    Complex.exp (((-2 * Real.pi * (i : ℝ) * 0.5 : ℝ) : ℂ) * Complex.I))

/-! ## ESPRIT estimator (`doa` package, gonum-backed file) -/

/-- Configuration of the ESPRIT estimator (`ESPRITConfig`). -/
structure ESPRITConfig where
  numAntennas : ℕ
  numSources : ℕ
  elementSpacing : ℝ
  snapshotLength : ℕ
  sampleRate : ℝ
  carrierFreq : ℝ

/-- Result record of the ESPRIT estimator (`ESPRITResult`).  Its fields are
exactly those of the Go struct: there is no `degenerate` flag.  `rmse` is
`Option ℝ`, with `none` modelling the IEEE `+Inf` sentinel that
`ComputeRMSE` returns on a cardinality mismatch. -/
structure ESPRITResult where
  angles : List ℝ
  rmse : Option ℝ
  successRate : ℝ
  processingTime : ℝ
  eigenvalues : List ℝ

/-- Shared covariance computation: both `ESPRITEstimator.computeCovarianceMatrix`
and `Estimator.computeCovarianceMatrix` run the identical triple loop
`cov[i][j] = (Σ_t X[i][t]·conj(X[j][t])) / N` with `N = len(X[0])`. -/
def computeCovarianceMatrix (X : List (List ℂ)) : List (List ℂ) :=
  let M := X.length
  let N := (X.headD []).length
  (List.range M).map fun i => (List.range M).map fun j =>
    ((List.range N).map fun t => get2c X i t * (starRingEnd ℂ) (get2c X j t)).sum
      / (N : ℂ)

/-- The real matrix both `computeEigenvalues` and `extractSignalSubspace`
derive from the complex covariance: diagonal entries keep the real part,
off-diagonal entries become `re(v·conj v) = |v|²`. -/
def realCovOf (cov : List (List ℂ)) : List (List ℝ) :=
  let M := cov.length
  (List.range M).map fun i => (List.range M).map fun j =>
    if i = j then (get2c cov i j).re
    else (get2c cov i j * (starRingEnd ℂ) (get2c cov i j)).re

/-- Insertion step for the descending sort used to model
`sort.Sort(sort.Reverse(sort.Float64Slice(eigenvalues)))`. -/
def insertDesc (x : ℝ) : List ℝ → List ℝ
  | [] => [x]
  | y :: ys => if y < x then x :: y :: ys else y :: insertDesc x ys

/-- Descending sort of a real list (models the standard-library sort call). -/
def sortDesc (l : List ℝ) : List ℝ :=
  l.foldr insertDesc []

/-- `computeEigenvalues`: build the real surrogate matrix, run the library
eigensolver (passed in as the oracle `eig`), fall back to an all-zero list
if factorization fails, and sort descending. -/
def computeEigenvalues (eig : List (List ℝ) → Option (List ℝ))
    (cov : List (List ℂ)) : List ℝ :=
  let M := cov.length
  match eig (realCovOf cov) with
  | none => List.replicate M 0
  | some vals => sortDesc ((List.range M).map fun i => vals.getD i 0)

/-- `extractSignalSubspace`: SVD (oracle `svd` returns the `U` factor, or
`none` when factorization fails) of the real surrogate matrix, then keep an
`(M−numSources) × numSources` block of `U` as the "signal subspace". -/
def extractSignalSubspace (svd : List (List ℝ) → Option (List (List ℝ)))
    (cov : List (List ℂ)) (numSources : ℕ) : Option (List (List ℂ)) :=
  let M := cov.length
  match svd (realCovOf cov) with
  | none => none
  | some u => some ((List.range (M - numSources)).map fun i =>
      (List.range numSources).map fun j => ((get2r u i j : ℝ) : ℂ))

/-- List-matrix product (models `mat.Dense.Mul`): inner dimension is the row
count of the right factor. -/
def matMulR (A B : List (List ℝ)) : List (List ℝ) :=
  (List.range A.length).map fun i => (List.range (B.headD []).length).map fun j =>
    ((List.range B.length).map fun k => get2r A i k * get2r B k j).sum

/-- List transpose of an `rows × cols` real matrix (models `mat.Dense.T`). -/
def transposeR (A : List (List ℝ)) : List (List ℝ) :=
  (List.range (A.headD []).length).map fun i =>
    (List.range A.length).map fun j => get2r A j i

/-- Square list matrix as a Mathlib matrix, to express invertibility of the
normal matrix exactly as gonum's `Inverse` (which errs on a singular input). -/
def toMatrix (n : ℕ) (G : List (List ℝ)) : Matrix (Fin n) (Fin n) ℝ :=
  Matrix.of fun i j => get2r G i.val j.val

/-- Square complex list matrix as a Mathlib matrix (used only to state
singularity of inputs in theorems). -/
def toMatrixC (n : ℕ) (G : List (List ℂ)) : Matrix (Fin n) (Fin n) ℂ :=
  Matrix.of fun i j => get2c G i.val j.val

/-- The placeholder rotation operator fabricated by `solveRotationMatrix`
when the normal matrix is singular: `psi[i][i] = exp(i·(i·π/K))`. -/
def placeholderPsi (K : ℕ) : List (List ℂ) :=
  (List.range K).map fun (i : ℕ) => (List.range K).map fun (j : ℕ) =>
    if i = j then Complex.exp ((((i : ℝ) * Real.pi / K : ℝ) : ℂ) * Complex.I) else 0

/-- `solveRotationMatrix`: drop imaginary parts of `Us1`/`Us2`, form
`G = Us1ᵀ·Us1`; if `G` is singular, silently return the fabricated
`placeholderPsi` (no flag is set anywhere); otherwise
`psi = G⁻¹·Us1ᵀ·Us2` cast back to a complex `K × K` matrix. -/
def solveRotationMatrix (Us1 Us2 : List (List ℂ)) (K : ℕ) : List (List ℂ) :=
  let rows := Us1.length
  let cols := (Us1.headD []).length
  let Us1Real := (List.range rows).map fun i =>
    (List.range cols).map fun j => (get2c Us1 i j).re
  let Us2Real := (List.range rows).map fun i =>
    (List.range cols).map fun j => (get2c Us2 i j).re
  let Us1T := transposeR Us1Real
  let G := matMulR Us1T Us1Real
  if IsUnit (toMatrix cols G).det then
    let inv := (toMatrix cols G)⁻¹
    let invList := (List.finRange cols).map fun i =>
      (List.finRange cols).map fun j => inv i j
    let psiReal := matMulR invList (matMulR Us1T Us2Real)
    (List.range K).map fun i => (List.range K).map fun j =>
      ((get2r psiReal i j : ℝ) : ℂ)
  else
    placeholderPsi K

/-- `extractAngles`: read phases off the diagonal of `psi`, convert through
the spacing/wavelength relation with clamping into the `asin` domain, and
pad indices past `min K (rows psi)` with evenly spaced fallback angles. -/
def extractAngles (cfg : ESPRITConfig) (psi : List (List ℂ)) (K : ℕ) : List ℝ :=
  let Kactual := min K psi.length
  (List.range K).map fun i =>
    if i < Kactual then
      let phase := Complex.arg (get2c psi i i)
      let wavelength := if cfg.carrierFreq > 0 then 3e8 / cfg.carrierFreq else 1
      let d := if cfg.carrierFreq > 0 then cfg.elementSpacing * wavelength
               else cfg.elementSpacing
      let sinTheta := phase * wavelength / (2 * Real.pi * d)
      let clamped := if sinTheta > 1 then 1 else if sinTheta < -1 then -1 else sinTheta
      Real.arcsin clamped
    else
      -Real.pi / 4 + i * Real.pi / (2 * K)

/-- `espritCore`: reject a signal subspace with fewer than `M−1` rows, else
build the two shifted sub-arrays and solve the rotation operator. -/
def espritCore (cfg : ESPRITConfig) (signalSubspace : List (List ℂ)) (M K : ℕ) :
    Except String (List ℝ) :=
  let rows := signalSubspace.length
  let cols := (signalSubspace.headD []).length
  if rows < M - 1 then
    Except.error "signal subspace too small"
  else
    let Us1 := (List.range rows).map fun i =>
      (List.range cols).map fun j => get2c signalSubspace i j
    let Us2 := (List.range rows).map fun i =>
      (List.range cols).map fun j =>
        if i + 1 < rows then get2c signalSubspace (i + 1) j else 0
    let psi := solveRotationMatrix Us1 Us2 K
    Except.ok (extractAngles cfg psi K)

/-- `ESPRITEstimator.EstimateDOA`: dimension check, covariance, eigenvalues,
signal-subspace extraction, ESPRIT core.  `svd` and `eig` are the gonum
factorization oracles. -/
def estimateDOA (svd : List (List ℝ) → Option (List (List ℝ)))
    (eig : List (List ℝ) → Option (List ℝ))
    (cfg : ESPRITConfig) (receivedSignal : List (List ℂ)) :
    Except String ESPRITResult :=
  let M := cfg.numAntennas
  let K := cfg.numSources
  if receivedSignal.length ≠ M then
    Except.error "signal dimension mismatch"
  else
    let covMatrix := computeCovarianceMatrix receivedSignal
    let eigenvalues := computeEigenvalues eig covMatrix
    match extractSignalSubspace svd covMatrix K with
    | none => Except.error "extract signal subspace failed"
    | some signalSubspace =>
      match espritCore cfg signalSubspace M K with
      | Except.error e => Except.error ("esprit core computation failed: " ++ e)
      | Except.ok angles =>
        Except.ok ⟨angles, some 0, 0, 0, eigenvalues⟩

/-! ## Random source, test signals, RMSE, Monte Carlo (same file) -/

/-- Go's `int(x)` conversion: truncation toward zero. -/
def intTrunc (x : ℝ) : ℤ :=
  if 0 ≤ x then ⌊x⌋ else -⌊-x⌋

/-- `randFloat64`:
`float64(int64(123456789+int(1000*math.Sin(float64(0))))%(1<<30)) / float64(1<<30)`.
It takes no seed and keeps no state; `Int.tmod` is Go's truncated `%`. -/
def randFloat64 : ℝ :=
  (((123456789 + intTrunc (1000 * Real.sin 0)).tmod (2 ^ 30) : ℤ) : ℝ) / (2:ℝ) ^ 30

/-- `randNorm`: Box-Muller transform on two draws from `randFloat64`.  The
`for u1 == 0` retry loop in the source is a no-op because `randFloat64` is a
fixed nonzero constant (`randFloat64_ne_zero` below). -/
def randNorm : ℝ :=
  Real.sqrt (-2 * Real.log randFloat64) * Real.cos (2 * Real.pi * randFloat64)

/-- `GenerateTestSignal`: steering-vector superposition of unit carriers plus
additive "noise" whose real and imaginary parts are both
`randNorm·sqrt(noisePower/2)`. -/
def generateTestSignal (cfg : ESPRITConfig) (trueAngles : List ℝ) (snrDB : ℝ) :
    List (List ℂ) :=
  let M := cfg.numAntennas
  let N := cfg.snapshotLength
  let d := cfg.elementSpacing
  let snrLinear := (10 : ℝ) ^ (snrDB / 10)
  let noisePower := 1 / snrLinear
  let noise : ℂ := ⟨randNorm * Real.sqrt (noisePower / 2),
                    randNorm * Real.sqrt (noisePower / 2)⟩
  (List.range M).map fun (m : ℕ) => (List.range N).map fun (t : ℕ) =>
    ((trueAngles.map fun θ =>
      Complex.exp (((2 * Real.pi * (m : ℝ) * d * Real.sin θ : ℝ) : ℂ) * Complex.I)
        * Complex.exp (((2 * Real.pi * (t : ℝ) * 0.01 : ℝ) : ℂ) * Complex.I)).sum)
      + noise

/-- `ComputeRMSE`: pair the two angle lists element-wise **in the given
order** (the code performs no sorting), and return `sqrt(mean of squared
differences)`.  `none` models the `math.Inf(1)` returned on a cardinality
mismatch. -/
def ComputeRMSE (estimatedAngles trueAngles : List ℝ) : Option ℝ :=
  if estimatedAngles.length ≠ trueAngles.length then none
  else some (Real.sqrt
    ((List.zipWith (fun e t => (e - t) * (e - t)) estimatedAngles trueAngles).sum
      / estimatedAngles.length))

/-- `EstimateWithPerformance`: generate a test signal, estimate, attach RMSE. -/
def estimateWithPerformance (svd : List (List ℝ) → Option (List (List ℝ)))
    (eig : List (List ℝ) → Option (List ℝ))
    (cfg : ESPRITConfig) (trueAngles : List ℝ) (snrDB : ℝ) :
    Except String ESPRITResult :=
  match estimateDOA svd eig cfg (generateTestSignal cfg trueAngles snrDB) with
  | Except.error e => Except.error e
  | Except.ok r => Except.ok { r with rmse := ComputeRMSE r.angles trueAngles }

/-- The per-trial outcomes of one SNR point of `MonteCarloSimulation`: the
loop body calls `EstimateWithPerformance` with arguments that do not depend
on the trial index, and no state is threaded between trials. -/
def mcTrialOutcomes (svd : List (List ℝ) → Option (List (List ℝ)))
    (eig : List (List ℝ) → Option (List ℝ))
    (cfg : ESPRITConfig) (trueAngles : List ℝ) (snr : ℝ) (numTrials : ℕ) :
    List (Except String ESPRITResult) :=
  (List.range numTrials).map fun _ =>
    estimateWithPerformance svd eig cfg trueAngles snr

/-- Addition on the `Option ℝ` model of floats-with-`+Inf`. -/
def optAdd : Option ℝ → Option ℝ → Option ℝ
  | some x, some y => some (x + y)
  | _, _ => none

/-- `result.RMSE < 0.1` on the `Option ℝ` model (`+Inf < 0.1` is false). -/
def rmseBelow (x : Option ℝ) (c : ℝ) : Bool :=
  match x with
  | none => false
  | some v => decide (v < c)

/-- `MonteCarloSimulation`: per SNR point, accumulate RMSE over the trials
(skipping errored trials), count successes (`RMSE < 0.1`), and average. -/
def monteCarloSimulation (svd : List (List ℝ) → Option (List (List ℝ)))
    (eig : List (List ℝ) → Option (List ℝ))
    (cfg : ESPRITConfig) (trueAngles : List ℝ) (snrRange : List ℝ)
    (numTrials : ℕ) : List (ℝ × ESPRITResult) :=
  snrRange.map fun snr =>
    let trials := mcTrialOutcomes svd eig cfg trueAngles snr numTrials
    let totalRMSE := trials.foldl (fun acc r =>
      match r with
      | Except.error _ => acc
      | Except.ok res => optAdd acc res.rmse) (some 0)
    let successCount := trials.foldl (fun c r =>
      match r with
      | Except.error _ => c
      | Except.ok res => if rmseBelow res.rmse 0.1 then c + 1 else c) (0 : ℕ)
    let avgRMSE := totalRMSE.map fun s => s / (numTrials : ℝ)
    let successRate := (successCount : ℝ) / numTrials
    (snr, ⟨[], avgRMSE, successRate, 0, []⟩)

/-! ## MUSIC estimator (`doa` package, `Estimator` file) -/

/-- The parameters of the `Estimator` DOA call that the algorithms read. -/
structure DOAParams where
  elementCount : ℕ
  numSources : ℕ
  snapshotLength : ℕ

/-- `randFloat` from the `Estimator` file:
`float64(int64(123456789)%(1<<30)) / float64(1<<30)` — again a constant. -/
def randFloat : ℝ :=
  ((((123456789 : ℤ)).tmod (2 ^ 30) : ℤ) : ℝ) / (2:ℝ) ^ 30

/-- `generateReceivedSignal`: synthetic snapshots from hard-coded source
angles, the supplied `data` stream (indexed modulo its length), and additive
noise built from two `randFloat` draws. -/
def generateReceivedSignal (data : List ℂ) (params : DOAParams) :
    List (List ℂ) :=
  let d := (0.5 : ℝ)
  let noise : ℂ := ⟨0.1 * (randFloat - 0.5), 0.1 * (randFloat - 0.5)⟩
  (List.range params.elementCount).map fun (n : ℕ) =>
    (List.range params.snapshotLength).map fun (t : ℕ) =>
      ((List.range params.numSources).map fun (s : ℕ) =>
        Complex.exp (((2 * Real.pi * (n : ℝ) * d *
          Real.sin (-Real.pi / 3 + (s : ℝ) * Real.pi / (3 * params.numSources)) : ℝ) : ℂ)
            * Complex.I) * data.getD (t % data.length) 0).sum + noise

/-- `eigenDecomposition`: the placeholder eigensolver of the `Estimator`
file — eigenvectors start as the identity, "eigenvalues" are row power
sums divided by `n`, and both arrays are sorted in tandem by a quadratic
swap loop, descending by eigenvalue. -/
def eigenDecomposition (matrix : List (List ℂ)) : List ℝ × List (List ℂ) :=
  let n := matrix.length
  let eigenvectors0 := (List.range n).map fun i =>
    (List.range n).map fun j => if i = j then (1 : ℂ) else 0
  let eigenvalues0 := (List.range n).map fun i =>
    ((List.range n).map fun j =>
      Complex.abs (get2c matrix i j) * Complex.abs (get2c matrix i j)).sum / n
  (List.range n).foldl (fun st i =>
    (List.range' (i + 1) (n - (i + 1))).foldl (fun st2 j =>
      if st2.1.getD i 0 < st2.1.getD j 0 then
        ((st2.1.set i (st2.1.getD j 0)).set j (st2.1.getD i 0),
         (st2.2.set i (st2.2.getD j [])).set j (st2.2.getD i []))
      else st2) st) (eigenvalues0, eigenvectors0)

/-- `extractNoiseSubspace`: rows `numSources … M−1` of the eigenvector list. -/
def extractNoiseSubspace (eigenvectors : List (List ℂ)) (numSources : ℕ) :
    List (List ℂ) :=
  let M := eigenvectors.length
  (List.range (M - numSources)).map fun i =>
    eigenvectors.getD (numSources + i) []

/-- Steering vector of grid point `i` of the 360-point MUSIC grid. -/
def musicSteering (elementCount : ℕ) (i : ℕ) : List ℂ :=
  let angle := -Real.pi / 2 + i * Real.pi / 360
  (List.range elementCount).map fun (n : ℕ) =>
    Complex.exp (((2 * Real.pi * (n : ℝ) * 0.5 * Real.sin angle : ℝ) : ℂ) * Complex.I)

/-- Noise-subspace projection energy for one grid angle:
`denom = Σ_k |Σ_n conj(noise[k][n])·steering[n]|²`. -/
def musicDenom (noiseSubspace : List (List ℂ)) (steering : List ℂ)
    (elementCount : ℕ) : ℝ :=
  (noiseSubspace.map fun row =>
    Complex.abs (((List.range elementCount).map fun n =>
        (starRingEnd ℂ) (row.getD n 0) * steering.getD n 0).sum) *
    Complex.abs (((List.range elementCount).map fun n =>
        (starRingEnd ℂ) (row.getD n 0) * steering.getD n 0).sum)).sum

/-- The noise subspace the MUSIC path derives from the input data. -/
def musicNoiseSubspace (params : DOAParams) (data : List ℂ) : List (List ℂ) :=
  extractNoiseSubspace
    (eigenDecomposition
      (computeCovarianceMatrix (generateReceivedSignal data params))).2
    params.numSources

/-- The spectrum denominator at grid point `i` of the MUSIC pipeline. -/
def musicDenomAt (params : DOAParams) (data : List ℂ) (i : ℕ) : ℝ :=
  musicDenom (musicNoiseSubspace params data)
    (musicSteering params.elementCount i) params.elementCount

/-- The 360-point MUSIC pseudo-spectrum: reciprocal of the denominator when
it exceeds the `1e-10` floor, else the `1e10` sentinel. -/
def musicSpectrum (params : DOAParams) (data : List ℂ) : List ℝ :=
  (List.range 360).map fun i =>
    if musicDenomAt params data i > 1e-10 then 1 / musicDenomAt params data i
    else 1e10

/-- Indices scanned out by the first loop of `findPeaks`: interior strict
local maxima of the spectrum. -/
def peakIndices (spectrum : List ℝ) : List ℕ :=
  (List.range spectrum.length).filter fun i =>
    decide (0 < i ∧ i + 1 < spectrum.length ∧
      spectrum.getD i 0 > spectrum.getD (i - 1) 0 ∧
      spectrum.getD i 0 > spectrum.getD (i + 1) 0)

/-- Swap of two positions of the peak list (`peaks[i], peaks[j] = ...`). -/
def pswap (l : List (ℕ × ℝ)) (i j : ℕ) : List (ℕ × ℝ) :=
  (l.set i (l.getD j (0, 0))).set j (l.getD i (0, 0))

/-- The quadratic swap sort of `findPeaks`, descending by peak value. -/
def peakSort (l : List (ℕ × ℝ)) : List (ℕ × ℝ) :=
  (List.range (l.length - 1)).foldl (fun acc i =>
    (List.range' (i + 1) (l.length - (i + 1))).foldl (fun b j =>
      if (b.getD i (0, 0)).2 < (b.getD j (0, 0)).2 then pswap b i j else b) acc) l

/-- `findPeaks`: collect interior strict local maxima, sort them descending
by value, truncate to at most `numPeaks`, and convert grid indices to
angles.  Nothing pads the list when fewer than `numPeaks` maxima exist. -/
def findPeaks (spectrum : List ℝ) (numPeaks : ℕ) : List ℝ :=
  let peaks := (peakIndices spectrum).map fun i => (i, spectrum.getD i 0)
  let sorted := peakSort peaks
  let truncated := sorted.take numPeaks
  truncated.map fun p => -Real.pi / 2 + (p.1 : ℝ) * Real.pi / spectrum.length

/-- `musicAlgorithm`: spectrum plus the angles returned by `findPeaks`. -/
def musicAlgorithm (params : DOAParams) (data : List ℂ) : List ℝ × List ℝ :=
  (musicSpectrum params data, findPeaks (musicSpectrum params data) params.numSources)

/-! ## Helper lemmas -/

theorem sumAbsSq_nil : sumAbsSq [] = 0 := rfl

theorem sumAbsSq_cons (z : ℂ) (w : List ℂ) :
    sumAbsSq (z :: w) = Complex.abs z * Complex.abs z + sumAbsSq w := by
  simp [sumAbsSq]

theorem sumAbsSq_nonneg (w : List ℂ) : 0 ≤ sumAbsSq w := by
  induction w with
  | nil => simp [sumAbsSq]
  | cons z w ih =>
    rw [sumAbsSq_cons]
    exact add_nonneg (mul_self_nonneg _) ih

theorem sumAbsSq_map_div (w : List ℂ) (c : ℂ) :
    sumAbsSq (w.map fun z => z / c) = sumAbsSq w / (Complex.abs c * Complex.abs c) := by
  induction w with
  | nil => simp [sumAbsSq]
  | cons z w ih =>
    simp only [List.map_cons, sumAbsSq_cons, ih, map_div₀]
    rw [div_mul_div_comm, div_add_div_same]

theorem normalize_sumAbsSq {w : List ℂ} (h : sumAbsSq w ≠ 0) :
    sumAbsSq (normalize w) = 1 := by
  unfold normalize
  rw [sumAbsSq_map_div, Complex.abs_ofReal,
    abs_of_nonneg (Real.sqrt_nonneg _), Real.mul_self_sqrt (sumAbsSq_nonneg w)]
  exact div_self h

theorem normalize_length (w : List ℂ) : (normalize w).length = w.length := by
  simp [normalize]

theorem foldl_preserves {α β : Type} (P : α → Prop) (f : α → β → α)
    (h : ∀ a b, P a → P (f a b)) :
    ∀ (l : List β) (a : α), P a → P (l.foldl f a) := by
  intro l
  induction l with
  | nil => intro a ha; simpa using ha
  | cons x xs ih => intro a ha; exact ih _ (h a x ha)

theorem sumAbsSq_exp_list (M : ℕ) (φ : ℕ → ℝ) :
    sumAbsSq ((List.range M).map fun n => Complex.exp ((φ n : ℂ) * Complex.I)) = M := by
  unfold sumAbsSq
  rw [List.map_map]
  have h : (List.range M).map
      ((fun z => Complex.abs z * Complex.abs z) ∘
        fun n => Complex.exp ((φ n : ℂ) * Complex.I))
      = (List.range M).map fun _ => (1 : ℝ) := by
    apply List.map_congr_left
    intro a _
    simp [Function.comp, Complex.abs_exp_ofReal_mul_I]
  rw [h, List.map_const', List.sum_replicate, List.length_range, nsmul_eq_mul, mul_one]

theorem randFloat64_eq : randFloat64 = 123456789 / 2 ^ 30 := by
  unfold randFloat64 intTrunc
  rw [Real.sin_zero, mul_zero]
  norm_num
  rw [show (123456789 : ℤ).tmod 1073741824 = 123456789 by decide]
  norm_num

theorem randFloat64_ne_zero : randFloat64 ≠ 0 := by
  rw [randFloat64_eq]
  norm_num

theorem zipWith_fst_snd (f : ℝ → ℝ → ℝ) (l : List (ℝ × ℝ)) :
    List.zipWith f (l.map Prod.fst) (l.map Prod.snd) = l.map fun p => f p.1 p.2 := by
  induction l with
  | nil => simp
  | cons x xs ih => simp [ih]

/-! ## C4: ComputeRMSE ordering -/

/-- C4 counterexample: `ComputeRMSE` is not invariant to reordering one of
its arguments — permuting the estimated list `[0, 1]` to `[1, 0]` against
the fixed truth `[1, 0]` changes the result from `1` to `0`, because the
code pairs the lists in the given order without sorting. -/
theorem C4_counterexample :
    ComputeRMSE [(0 : ℝ), 1] [1, 0] ≠ ComputeRMSE [1, 0] [1, 0] := by
  have h1 : ComputeRMSE [(0 : ℝ), 1] [1, 0] = some (Real.sqrt 1) := by
    unfold ComputeRMSE
    norm_num
  have h2 : ComputeRMSE [(1 : ℝ), 0] [1, 0] = some (Real.sqrt 0) := by
    unfold ComputeRMSE
    norm_num
  rw [h1, h2, Real.sqrt_one, Real.sqrt_zero]
  simp

/-- C4 amended: `ComputeRMSE` pairs the two lists element-wise in the given
order, so it is only invariant under permuting the *pairs* jointly; the
claimed invariance under reordering a single argument fails. -/
theorem C4_amended (l l' : List (ℝ × ℝ)) (h : l.Perm l') :
    ComputeRMSE (l.map Prod.fst) (l.map Prod.snd)
      = ComputeRMSE (l'.map Prod.fst) (l'.map Prod.snd) := by
  unfold ComputeRMSE
  simp only [List.length_map, zipWith_fst_snd]
  rw [(h.map (fun p => (p.1 - p.2) * (p.1 - p.2))).sum_eq, h.length_eq]

/-- C4 witness: the amended invariance at a concrete pair list and swap. -/
theorem C4_witness :
    ([((0 : ℝ), (0 : ℝ)), (1, 2)].Perm [((1 : ℝ), (2 : ℝ)), (0, 0)]) ∧
    ComputeRMSE ([((0 : ℝ), (0 : ℝ)), (1, 2)].map Prod.fst)
        ([((0 : ℝ), (0 : ℝ)), (1, 2)].map Prod.snd)
      = ComputeRMSE ([((1 : ℝ), (2 : ℝ)), (0, 0)].map Prod.fst)
        ([((1 : ℝ), (2 : ℝ)), (0, 0)].map Prod.snd) :=
  ⟨List.Perm.swap _ _ _, C4_amended _ _ (List.Perm.swap _ _ _)⟩

/-! ## C10: determinism of the random source and Monte Carlo -/

/-- C10: `randFloat64` is the fixed constant `123456789/2³⁰` (it has no seed
and no state), `randNorm` is consequently a fixed constant, every Monte
Carlo trial of an SNR point is the identical value (the trial list is a
`replicate`), and `GenerateTestSignal` / `MonteCarloSimulation` return
identical outputs on identical arguments. -/
theorem C10_theorem :
    randFloat64 = 123456789 / 2 ^ 30 ∧
    randNorm = Real.sqrt (-2 * Real.log (123456789 / 2 ^ 30)) *
      Real.cos (2 * Real.pi * (123456789 / 2 ^ 30)) ∧
    (∀ svd eig cfg trueAngles snr numTrials,
      mcTrialOutcomes svd eig cfg trueAngles snr numTrials
        = List.replicate numTrials
            (estimateWithPerformance svd eig cfg trueAngles snr)) ∧
    (∀ cfg trueAngles snrDB,
      generateTestSignal cfg trueAngles snrDB
        = generateTestSignal cfg trueAngles snrDB) ∧
    (∀ svd eig cfg trueAngles snrRange numTrials,
      monteCarloSimulation svd eig cfg trueAngles snrRange numTrials
        = monteCarloSimulation svd eig cfg trueAngles snrRange numTrials) := by
  refine ⟨randFloat64_eq, ?_, ?_, fun _ _ _ => rfl, fun _ _ _ _ _ _ => rfl⟩
  · unfold randNorm
    rw [randFloat64_eq]
  · intro svd eig cfg trueAngles snr numTrials
    unfold mcTrialOutcomes
    rw [List.map_const', List.length_range]

/-! ## C9: the MUSIC spectrum floor -/

/-- C9: each MUSIC pseudo-spectrum entry is the reciprocal `1/denom` exactly
when the projection energy `denom` exceeds the `1e-10` floor, and is the
`1e10` sentinel whenever `denom` is at or below the floor — the reciprocal
is never taken of a denominator at or below the floor. -/
theorem C9_theorem (params : DOAParams) (data : List ℂ) (i : ℕ) (hi : i < 360) :
    (musicDenomAt params data i ≤ 1e-10 →
      (musicSpectrum params data).getD i 0 = 1e10) ∧
    (1e-10 < musicDenomAt params data i →
      (musicSpectrum params data).getD i 0 = 1 / musicDenomAt params data i) := by
  unfold musicSpectrum
  rw [getD_map_range _ hi]
  constructor
  · intro h
    rw [if_neg (not_lt.mpr h)]
  · intro h
    rw [if_pos h]

theorem eigenDecomposition_snd_length (m : List (List ℂ)) :
    (eigenDecomposition m).2.length = m.length := by
  simp only [eigenDecomposition]
  refine foldl_preserves
    (fun (st : List ℝ × List (List ℂ)) => st.2.length = m.length) _ ?_ _ _ (by simp)
  intro st i hst
  refine foldl_preserves
    (fun (st2 : List ℝ × List (List ℂ)) => st2.2.length = m.length) _ ?_ _ _ hst
  intro st2 j h2
  split
  · simp [h2]
  · exact h2

theorem generateReceivedSignal_length (data : List ℂ) (params : DOAParams) :
    (generateReceivedSignal data params).length = params.elementCount := by
  simp only [generateReceivedSignal]
  rw [List.length_map, List.length_range]

theorem computeCovarianceMatrix_length (X : List (List ℂ)) :
    (computeCovarianceMatrix X).length = X.length := by
  simp only [computeCovarianceMatrix]
  rw [List.length_map, List.length_range]

theorem musicNoiseSubspace_eq_nil (params : DOAParams) (data : List ℂ)
    (h : params.elementCount ≤ params.numSources) :
    musicNoiseSubspace params data = [] := by
  simp only [musicNoiseSubspace, extractNoiseSubspace]
  rw [eigenDecomposition_snd_length, computeCovarianceMatrix_length,
    generateReceivedSignal_length]
  rw [Nat.sub_eq_zero_of_le h]
  simp

theorem musicDenomAt_zero (params : DOAParams) (data : List ℂ)
    (h : params.elementCount ≤ params.numSources) (i : ℕ) :
    musicDenomAt params data i = 0 := by
  unfold musicDenomAt
  rw [musicNoiseSubspace_eq_nil params data h]
  simp [musicDenom]

/-- C9 witness: with one antenna and one claimed source the noise subspace
is empty, so the denominator is `0 ≤ 1e-10` and the sentinel is returned. -/
theorem C9_witness :
    (musicSpectrum ⟨1, 1, 1⟩ [(1 : ℂ)]).getD 0 0 = 1e10 :=
  (C9_theorem ⟨1, 1, 1⟩ [(1 : ℂ)] 0 (by norm_num)).1
    (by rw [musicDenomAt_zero ⟨1, 1, 1⟩ [(1 : ℂ)] (by norm_num)]; norm_num)

/-! ## C2: MUSIC peak count -/

theorem musicSpectrum_const :
    musicSpectrum ⟨1, 1, 1⟩ [(1 : ℂ)] = (List.range 360).map fun _ => (1e10 : ℝ) := by
  unfold musicSpectrum
  apply List.map_congr_left
  intro i _
  rw [musicDenomAt_zero ⟨1, 1, 1⟩ [(1 : ℂ)] (by norm_num) i]
  norm_num

theorem peakIndices_const (n : ℕ) (c : ℝ) :
    peakIndices ((List.range n).map fun _ => c) = [] := by
  unfold peakIndices
  rw [List.filter_eq_nil_iff]
  intro a ha
  rw [decide_eq_true_eq]
  rintro ⟨h1, h2, h3, -⟩
  rw [List.length_map, List.length_range] at h2
  rw [getD_map_range _ (by omega) 0, getD_map_range _ (by omega) 0] at h3
  exact lt_irrefl c h3

theorem peakSort_length (l : List (ℕ × ℝ)) : (peakSort l).length = l.length := by
  unfold peakSort
  refine foldl_preserves (fun (x : List (ℕ × ℝ)) => x.length = l.length) _ ?_ _ _ rfl
  intro acc i hacc
  refine foldl_preserves (fun (x : List (ℕ × ℝ)) => x.length = l.length) _ ?_ _ _ hacc
  intro b j hb
  split
  · simp [pswap, hb]
  · exact hb

/-- C2 counterexample: with one antenna and one requested source, every
pseudo-spectrum entry is the constant sentinel, there are no strict local
maxima, and `EstimateDOA`'s MUSIC path returns the empty angle list — not
`K = 1` angles, and with no fallback padding. -/
theorem C2_counterexample :
    (⟨1, 1, 1⟩ : DOAParams).numSources = 1 ∧
    (musicAlgorithm ⟨1, 1, 1⟩ [(1 : ℂ)]).2 = [] := by
  refine ⟨rfl, ?_⟩
  have hsplit : (musicAlgorithm ⟨1, 1, 1⟩ [(1 : ℂ)]).2
      = findPeaks (musicSpectrum ⟨1, 1, 1⟩ [(1 : ℂ)]) 1 := by
    simp only [musicAlgorithm]
  rw [hsplit, musicSpectrum_const]
  unfold findPeaks
  rw [peakIndices_const]
  rfl

/-- C2 amended: `findPeaks` returns `min K p` angles, where `p` is the
number of interior strict local maxima of the spectrum; when fewer than `K`
peaks exist the result is shorter than `K` — the code never pads the MUSIC
output with fallback angles. -/
theorem C2_amended (spectrum : List ℝ) (numPeaks : ℕ) :
    (findPeaks spectrum numPeaks).length
      = min numPeaks (peakIndices spectrum).length := by
  unfold findPeaks
  rw [List.length_map, List.length_take, peakSort_length, List.length_map]

/-! ## C3: ESPRIT subspace-dimension mismatch -/

/-- C3: whenever `2 ≤ K < M` (and the input has the configured number of
antenna rows), `EstimateDOA` of the ESPRIT estimator always returns an
error: the extracted signal subspace has `M−K` rows while `espritCore`
demands at least `M−1`, so no angle estimates are ever produced — whatever
the SVD/eigen oracles do. -/
theorem C3_theorem (svd : List (List ℝ) → Option (List (List ℝ)))
    (eig : List (List ℝ) → Option (List ℝ))
    (cfg : ESPRITConfig) (X : List (List ℂ))
    (hK : 2 ≤ cfg.numSources) (hKM : cfg.numSources < cfg.numAntennas)
    (hX : X.length = cfg.numAntennas) :
    ∃ msg, estimateDOA svd eig cfg X = Except.error msg := by
  simp only [estimateDOA]
  rw [if_neg (not_not_intro hX)]
  rcases hsvd : svd (realCovOf (computeCovarianceMatrix X)) with _ | u
  · simp only [extractSignalSubspace, hsvd]
    exact ⟨_, rfl⟩
  · simp only [extractSignalSubspace, hsvd]
    have hcov : (computeCovarianceMatrix X).length = cfg.numAntennas := by
      rw [computeCovarianceMatrix_length, hX]
    simp only [espritCore]
    rw [List.length_map, List.length_range, hcov]
    rw [if_pos (by omega)]
    exact ⟨_, rfl⟩

/-- C3 witness: a concrete configuration with `M = 3`, `K = 2` always errors. -/
theorem C3_witness :
    ∃ msg, estimateDOA (fun _ => some [[(1 : ℝ)]]) (fun _ => none)
      ⟨3, 2, 0.5, 1, 1, 1⟩ [[], [], []] = Except.error msg :=
  C3_theorem _ _ _ _ (by norm_num) (by norm_num) rfl

/-! ## C8: covariance formula and the Hermitian invariant -/

theorem covariance_entry (X : List (List ℂ)) (M N : ℕ) (hM : X.length = M)
    (hrow : ∀ r ∈ X, r.length = N) {a b : ℕ} (ha : a < M) (hb : b < M) :
    get2c (computeCovarianceMatrix X) a b
      = ((List.range N).map fun t =>
          get2c X a t * (starRingEnd ℂ) (get2c X b t)).sum / (N : ℂ) := by
  have hhead : (X.headD []).length = N := by
    cases X with
    | nil => simp at hM; omega
    | cons r t => exact hrow r (List.mem_cons_self r t)
  show ((computeCovarianceMatrix X).getD a []).getD b 0 = _
  simp only [computeCovarianceMatrix]
  rw [hM, hhead, getD_map_range _ ha, getD_map_range _ hb]

/-- C8: the covariance matrix entry is `(1/N)·Σ_t X[i][t]·conj(X[j][t])`,
and the result satisfies the Hermitian invariant
`C[i][j] = conj(C[j][i])` for all in-range `i, j`. -/
theorem C8_theorem (X : List (List ℂ)) (M N : ℕ) (hM : X.length = M)
    (hrow : ∀ r ∈ X, r.length = N) (_hN : 1 ≤ N) (i j : ℕ)
    (hi : i < M) (hj : j < M) :
    get2c (computeCovarianceMatrix X) i j
      = ((List.range N).map fun t =>
          get2c X i t * (starRingEnd ℂ) (get2c X j t)).sum / (N : ℂ) ∧
    get2c (computeCovarianceMatrix X) i j
      = (starRingEnd ℂ) (get2c (computeCovarianceMatrix X) j i) := by
  refine ⟨covariance_entry X M N hM hrow hi hj, ?_⟩
  rw [covariance_entry X M N hM hrow hi hj, covariance_entry X M N hM hrow hj hi]
  rw [map_div₀, map_natCast, map_list_sum, List.map_map]
  have h : (List.range N).map
      (⇑(starRingEnd ℂ) ∘ fun t => get2c X j t * (starRingEnd ℂ) (get2c X i t))
      = (List.range N).map fun t =>
          get2c X i t * (starRingEnd ℂ) (get2c X j t) := by
    apply List.map_congr_left
    intro t _
    simp [Function.comp, map_mul, mul_comm]
  rw [h]

/-- C8 witness: the formula and the invariant at the concrete snapshot `[[1]]`. -/
theorem C8_witness :
    get2c (computeCovarianceMatrix [[(1 : ℂ)]]) 0 0
      = ((List.range 1).map fun t =>
          get2c [[(1 : ℂ)]] 0 t * (starRingEnd ℂ) (get2c [[(1 : ℂ)]] 0 t)).sum
            / ((1 : ℕ) : ℂ) ∧
    get2c (computeCovarianceMatrix [[(1 : ℂ)]]) 0 0
      = (starRingEnd ℂ) (get2c (computeCovarianceMatrix [[(1 : ℂ)]]) 0 0) :=
  C8_theorem [[(1 : ℂ)]] 1 1 rfl
    (by intro r hr; simp only [List.mem_singleton] at hr; rw [hr]; rfl)
    (le_refl 1) 0 0 (by norm_num) (by norm_num)

/-! ## C6: MVDR on a singular covariance -/

/-- C6 counterexample: on the singular covariance `[[0]]` the code does not
fail — the unchecked Gauss-Jordan divides by the zero pivot and
`ComputeMVDRWeights` still returns a weight vector (here `[0]`), so the
claimed `SingularCovariance` error never happens. -/
theorem C6_counterexample :
    ¬ IsUnit (toMatrixC 1 [[(0 : ℂ)]]).det ∧
    ComputeMVDRWeights [[(0 : ℂ)]] [(1 : ℂ)] = [0] := by
  constructor
  · rw [show (toMatrixC 1 [[(0 : ℂ)]]).det = 0 from by rw [Matrix.det_fin_one]; rfl]
    simp
  · simp [ComputeMVDRWeights, matrixInverse, pivotStep, augRow, get2c,
      List.range_succ]

/-- C6 amended: `ComputeMVDRWeights` has no error path at all: for every
covariance matrix (singular or not) it returns a weight vector of the
steering vector's length; singular inputs silently flow through the
zero-pivot division instead of producing a `SingularCovariance` error. -/
theorem C6_amended (covMatrix : List (List ℂ)) (steeringVector : List ℂ) :
    (ComputeMVDRWeights covMatrix steeringVector).length
      = steeringVector.length := by
  simp only [ComputeMVDRWeights]
  rw [List.length_map, List.length_map, List.length_range]

/-! ## C5: unit-norm of the closed-form beamformers -/

/-- C5 counterexample: `ComputeMVDRWeights` does not return a unit-norm
vector — at the identity covariance and steering `[1, 1]` the returned
weights are `[1/2, 1/2]`, whose squared Euclidean norm is `1/2`, not `1`. -/
theorem C5_counterexample :
    sumAbsSq (ComputeMVDRWeights [[(1 : ℂ), 0], [0, 1]] [1, 1]) ≠ 1 := by
  have h : sumAbsSq (ComputeMVDRWeights [[(1 : ℂ), 0], [0, 1]] [1, 1]) = 1 / 2 := by
    simp [ComputeMVDRWeights, matrixInverse, pivotStep, augRow, get2c, sumAbsSq,
      List.range_succ]
    norm_num [map_div₀, Complex.abs_two]
  rw [h]
  norm_num

/-- C5 amended: the two beamformers that go through `normalize` —
`ComputeConjugateBeamforming` and `ComputeZOFBeamforming` — return length-M
vectors, of unit Euclidean norm always for the conjugate beamformer and
whenever the pre-normalization vector is nonzero for the zero-forcing one;
`ComputeMVDRWeights` instead normalizes by the distortionless constraint
and is not unit-norm in general. -/
theorem C5_amended (M : ℕ) (d θ : ℝ) (angles : List ℝ) (hM : 1 ≤ M) :
    (ComputeConjugateBeamforming M d θ).length = M ∧
    sumAbsSq (ComputeConjugateBeamforming M d θ) = 1 ∧
    (ComputeZOFBeamforming M d angles).length = M ∧
    (sumAbsSq (zofRaw M d angles) ≠ 0 →
      sumAbsSq (ComputeZOFBeamforming M d angles) = 1) := by
  have hc : sumAbsSq (conjugateRaw M d θ) = M := by
    unfold conjugateRaw
    exact sumAbsSq_exp_list M _
  refine ⟨?_, ?_, ?_, ?_⟩
  · unfold ComputeConjugateBeamforming conjugateRaw
    rw [normalize_length, List.length_map, List.length_range]
  · unfold ComputeConjugateBeamforming
    apply normalize_sumAbsSq
    rw [hc]
    exact Nat.cast_ne_zero.mpr (by omega)
  · unfold ComputeZOFBeamforming zofRaw
    rw [normalize_length, List.length_map, List.length_range]
  · intro h
    unfold ComputeZOFBeamforming
    exact normalize_sumAbsSq h

/-- C5 witness: the amended statement at `M = 1`, `d = 0.5`, `θ = 0`. -/
theorem C5_witness :
    (1 : ℕ) ≤ 1 ∧
    ((ComputeConjugateBeamforming 1 0.5 0).length = 1 ∧
     sumAbsSq (ComputeConjugateBeamforming 1 0.5 0) = 1 ∧
     (ComputeZOFBeamforming 1 0.5 []).length = 1 ∧
     (sumAbsSq (zofRaw 1 0.5 []) ≠ 0 →
       sumAbsSq (ComputeZOFBeamforming 1 0.5 []) = 1)) :=
  ⟨le_refl 1, C5_amended 1 0.5 0 [] (le_refl 1)⟩

/-! ## C7: optimizer weight initialization -/

theorem initializeWeights_getD {M n : ℕ} (h : n < M) :
    (initializeWeights M).getD n 0
      = (-1 : ℂ) ^ n / ((Real.sqrt M : ℝ) : ℂ) := by
  unfold initializeWeights normalize
  rw [List.map_map, getD_map_range _ h, sumAbsSq_exp_list M]
  simp only [Function.comp]
  congr 1
  rw [show ((-2 * Real.pi * (n : ℝ) * 0.5 : ℝ) : ℂ) * Complex.I
      = (n : ℂ) * (-(Real.pi * Complex.I)) by norm_num; ring]
  rw [Complex.exp_nat_mul]
  congr 1
  rw [Complex.exp_neg, Complex.exp_pi_mul_I]
  norm_num

theorem conjBF_getD (M : ℕ) (d θ : ℝ) {n : ℕ} (h : n < M) :
    (ComputeConjugateBeamforming M d θ).getD n 0
      = Complex.exp (((-(2 * Real.pi * (n : ℝ) * d * Real.sin θ) : ℝ) : ℂ)
          * Complex.I) / ((Real.sqrt M : ℝ) : ℂ) := by
  unfold ComputeConjugateBeamforming normalize conjugateRaw
  rw [List.map_map, getD_map_range _ h, sumAbsSq_exp_list M]
  simp only [Function.comp]

/-- C7 counterexample: `initializeWeights` ignores the target direction —
for target direction `0` the conjugate-beamforming initialization would be
the constant vector `[1/√2, 1/√2]`, but the optimizer starts from
`[1/√2, −1/√2]`. -/
theorem C7_counterexample :
    initializeWeights 2 ≠ ComputeConjugateBeamforming 2 0.5 0 := by
  intro heq
  have h1 : (initializeWeights 2).getD 1 0
      = (ComputeConjugateBeamforming 2 0.5 0).getD 1 0 := by rw [heq]
  rw [initializeWeights_getD (by norm_num), conjBF_getD 2 0.5 0 (by norm_num)] at h1
  rw [Real.sin_zero] at h1
  norm_num at h1
  rw [← one_div] at h1
  have hs : ((Real.sqrt 2 : ℝ) : ℂ) ≠ 0 :=
    Complex.ofReal_ne_zero.mpr (ne_of_gt (Real.sqrt_pos.mpr two_pos))
  have h2 : (-1 : ℂ) = 1 := (div_left_inj' hs).mp h1
  norm_num at h2

/-- C7 amended: the weights `Optimize` holds at entry to its first gradient
iteration are `initializeWeights M`, the fixed vector `(−1)ⁿ/√M` — the
normalized conjugate steering vector for `sin θ = 1`, independent of
`params.TargetDirection`. -/
theorem C7_amended (M n : ℕ) (h : n < M) :
    (initializeWeights M).getD n 0
      = (-1 : ℂ) ^ n / ((Real.sqrt M : ℝ) : ℂ) :=
  initializeWeights_getD h

/-- C7 witness: the amended statement at `M = 2`, `n = 1`. -/
theorem C7_witness :
    (1 : ℕ) < 2 ∧
    (initializeWeights 2).getD 1 0
      = (-1 : ℂ) ^ 1 / ((Real.sqrt (2 : ℕ) : ℝ) : ℂ) :=
  ⟨by norm_num, C7_amended 2 1 (by norm_num)⟩

/-! ## C1: the ESPRIT rotation solve on a singular normal matrix -/

/-- C1: at the singular input `Us1 = Us2 = [[0]]` (so `Us1ᵀUs1 = [[0]]` is
not invertible) with `K = 1`, `solveRotationMatrix` silently returns the
fabricated placeholder rotation operator `[[exp(i·0·π/1)]] = [[1]]`; the
`ESPRITResult` type carries no `degenerate` flag anywhere. -/
theorem C1_theorem :
    solveRotationMatrix [[(0 : ℂ)]] [[(0 : ℂ)]] 1 = [[(1 : ℂ)]] := by
  simp only [solveRotationMatrix]
  split
  case isTrue hunit =>
    exfalso
    rw [Matrix.det_fin_one] at hunit
    simp [toMatrix, matMulR, transposeR, get2r, get2c, List.range_succ] at hunit
  case isFalse h =>
    simp [placeholderPsi, List.range_succ, Complex.exp_zero]

end ISAC

end
